import Mathlib

/-!
# Chatrix: login form, peer list, chat thread and file-transfer progress

A shallow embedding of the renderer scripts `src/js/login.js` and
`src/js/chat.js` and of the IPC handlers of `src/main.js`.

* JavaScript strings are sequences of UTF-16 code units (`JSString`), so that
  `length`, `trim` and the regular-expression test count and inspect exactly
  what the engine does.
* The module-level variables of `chat.js` are the fields of `ChatState`.
* Values obtained from the environment (`new Date()`, `Math.random()`, the
  answer of `confirm`, the outcome of an `ipcRenderer.invoke`) are explicit
  arguments of the functions that read them.
* DOM rendering (`displayMessages`, `updatePeersUI`, CSS classes) carries no
  program state and is left out.
-/

namespace Chatrix

/-! ## JavaScript strings -/

/-- A JavaScript string: its sequence of UTF-16 code units. -/
abbrev JSString := List Nat

/-- The code units of one Unicode scalar value (a surrogate pair above the BMP). -/
def utf16Units (c : Char) : List Nat :=
  if c.toNat < 65536 then [c.toNat]
  else [55296 + (c.toNat - 65536) / 1024, 56320 + (c.toNat - 65536) % 1024]

/-- The JavaScript string denoted by a literal. -/
def js (s : String) : JSString := s.toList.flatMap utf16Units

/-- ECMAScript `WhiteSpace` and `LineTerminator` code points, the ones
`String.prototype.trim` strips: TAB, LF, VT, FF, CR, SP, NBSP, U+1680,
U+2000..U+200A, U+2028, U+2029, U+202F, U+205F, U+3000, U+FEFF. -/
def isWhiteSpace (c : Nat) : Bool :=
  c == 9 || c == 10 || c == 11 || c == 12 || c == 13 || c == 32 || c == 160 ||
  c == 5760 || (8192 ≤ c && c ≤ 8202) || c == 8232 || c == 8233 || c == 8239 ||
  c == 8287 || c == 12288 || c == 65279

/-- `String.prototype.trim`: strip white space from both ends. -/
def trim (s : JSString) : JSString :=
  (s.dropWhile isWhiteSpace).rdropWhile isWhiteSpace

/-! ## login.js -/

/-- Membership in the character class of `/[<>:"/\\|?*]/`:
`<` 60, `>` 62, `:` 58, `"` 34, `/` 47, `\` 92, `|` 124, `?` 63, `*` 42. -/
def isInvalidChar (c : Nat) : Bool :=
  c == 60 || c == 62 || c == 58 || c == 34 || c == 47 || c == 92 || c == 124 ||
  c == 63 || c == 42

/-- `invalidChars.test(displayName)`: some code unit is in the class. -/
def invalidCharsTest (s : JSString) : Bool := s.any isInvalidChar

/-- What one run of `validateForm` yields: its return value and the message it
passes to `showInputError`, if any. -/
structure FormCheck where
  ok : Bool
  shown : Option String
  deriving DecidableEq, Repr

/-- `validateForm` of `login.js`, on the value of the display-name input. -/
def validateForm (displayNameValue : JSString) : FormCheck :=
  let displayName := trim displayNameValue
  if displayName.isEmpty then
    ⟨false, some "Display name is required"⟩
  else if displayName.length < 2 then
    ⟨false, some "Display name must be at least 2 characters"⟩
  else if displayName.length > 20 then
    ⟨false, some "Display name must be less than 20 characters"⟩
  else if invalidCharsTest displayName then
    ⟨false, some "Display name contains invalid characters"⟩
  else
    ⟨true, none⟩

/-- The object returned by the `get-platform-info` handler. -/
structure PlatformInfo where
  platform : JSString
  hostname : JSString
  type : JSString
  arch : JSString
  deriving DecidableEq, Repr

/-- The `userData` object built by `handleLogin`. -/
structure UserData where
  name : JSString
  device : JSString
  ip : JSString
  platform : PlatformInfo
  joinedAt : JSString
  deriving DecidableEq, Repr

/-- The login page: the two inputs, the placeholder of the device input, and
the `currentUser` entry of `localStorage`. -/
structure LoginPage where
  displayNameInput : JSString
  deviceNameInput : JSString
  deviceNamePlaceholder : JSString
  localStorage : Option UserData
  deriving DecidableEq, Repr

/-- What `handleLogin` reads from outside: the outcomes of the two
`ipcRenderer.invoke` calls (`none` when the promise rejects) and the ISO
string of `new Date()`. -/
structure LoginEnv where
  userIP : Option JSString
  platformInfo : Option PlatformInfo
  now : JSString
  deriving DecidableEq, Repr

/-- `handleLogin` of `login.js`, up to and including `localStorage.setItem`;
what follows (the delay, the navigation) does not touch the page state kept
here. A rejected `invoke` jumps to the `catch` block, which stores nothing. -/
def handleLogin (pg : LoginPage) (env : LoginEnv) : LoginPage :=
  if !(validateForm pg.displayNameInput).ok then pg
  else
    let displayName := trim pg.displayNameInput
    let deviceName :=
      if (trim pg.deviceNameInput).isEmpty then pg.deviceNamePlaceholder
      else trim pg.deviceNameInput
    match env.userIP with
    | none => pg
    | some userIP =>
      match env.platformInfo with
      | none => pg
      | some platformInfo =>
        let userData : UserData :=
          { name := displayName, device := deviceName, ip := userIP,
            platform := platformInfo, joinedAt := env.now }
        { pg with localStorage := some userData }

/-- The argument of `getDefaultDeviceName` as the function reads it: the
`platform` string and the `hostname` property, which may be absent. -/
structure PlatformArg where
  platform : JSString
  hostname : Option JSString
  deriving DecidableEq, Repr

/-- The object of the `get-platform-info` handler, passed to
`getDefaultDeviceName`. -/
def PlatformInfo.toArg (platformInfo : PlatformInfo) : PlatformArg :=
  { platform := platformInfo.platform, hostname := some platformInfo.hostname }

/-- `getDefaultDeviceName` of `login.js`; `toLowerCase` stands for
`String.prototype.toLowerCase` of the engine. An absent hostname becomes the
empty string, which is falsy. -/
def getDefaultDeviceName (toLowerCase : JSString → JSString) (platformInfo : PlatformArg) :
    JSString :=
  let platform := toLowerCase platformInfo.platform
  let hostname := platformInfo.hostname.getD []
  if !hostname.isEmpty && hostname != js "localhost" then hostname
  else if platform == js "linux" then js "Linux PC"
  else if platform == js "darwin" then js "MacBook"
  else if platform == js "win32" then js "Windows PC"
  else js "My Device"

/-- What `toLowerCase` does to a string of ASCII code units: `A`..`Z` move to
`a`..`z`, the other units stay. -/
def toLowerCaseASCII (s : JSString) : JSString :=
  s.map (fun c => if 65 ≤ c ∧ c ≤ 90 then c + 32 else c)

/-- The hostname leads `getDefaultDeviceName` to the platform switch: it is
missing, empty or `localhost`. -/
def NoUsableHostname (platformInfo : PlatformArg) : Prop :=
  platformInfo.hostname = none ∨ platformInfo.hostname = some [] ∨
    platformInfo.hostname = some (js "localhost")

/-! ## main.js -/

/-- One entry of the peer list served by the main process. -/
structure Peer where
  name : JSString
  device : JSString
  ip : JSString
  status : JSString
  avatar : JSString
  deriving DecidableEq, Repr

/-- The `mockPeers` array of the `discover-peers` handler. -/
def mockPeers : List Peer :=
  [ { name := js "Alice", device := js "Ubuntu Desktop", ip := js "192.168.1.101",
      status := js "online", avatar := js "A" },
    { name := js "Bob", device := js "MacBook Pro", ip := js "192.168.1.102",
      status := js "online", avatar := js "B" },
    { name := js "Carol", device := js "Windows 11", ip := js "192.168.1.103",
      status := js "away", avatar := js "C" },
    { name := js "David", device := js "Linux Mint", ip := js "192.168.1.104",
      status := js "online", avatar := js "D" } ]

/-- The handler registered with `ipcMain.handle` for `discover-peers`: it takes no
input and returns `mockPeers`. -/
def discoverPeersHandler : List Peer := mockPeers

/-! ## chat.js: state -/

/-- The `status` field of a file message: one of the three literals the script
assigns. -/
inductive TransferStatus where
  | sending
  | sent
  | failed
  deriving DecidableEq, Repr

/-- The `fileMessage` object of `sendFile`. `progress` is a JavaScript number,
kept as a rational; `fileSize` and `fileIcon` are display strings. -/
structure FileMessage where
  fileName : JSString
  fileSize : JSString
  fileIcon : JSString
  progress : ℚ
  status : TransferStatus
  time : JSString
  timestamp : Int
  deriving DecidableEq, Repr

/-- An element of `activeMessages`: a text message object
`{text, sent, time, timestamp}` or a file message object (`type: 'file'`). -/
inductive ChatMessage where
  | text (text : JSString) (sent : Bool) (time : JSString) (timestamp : Int)
  | file (fileMessage : FileMessage)
  deriving DecidableEq, Repr

/-- The `sent` property of a message object; a file message has none, and
`undefined` is falsy. -/
def ChatMessage.sent : ChatMessage → Bool
  | .text _ sent _ _ => sent
  | .file _ => false

/-- The module-level variables of `chat.js`, with the value of the message
input and the `currentUser` entry of `localStorage`. Dates are milliseconds
since the epoch. -/
structure ChatState where
  currentUser : Option UserData
  sessionStartTime : Option Int
  sessionDurationInterval : Option Nat
  activePeer : Option Peer
  activeMessages : List ChatMessage
  discoveredPeers : List Peer
  messageInput : JSString
  localStorage : Option UserData
  deriving DecidableEq, Repr

/-- The state right after the script is loaded, given what `localStorage`
holds. -/
def initialChatState (stored : Option UserData) : ChatState :=
  { currentUser := none, sessionStartTime := none, sessionDurationInterval := none,
    activePeer := none, activeMessages := [], discoveredPeers := [],
    messageInput := [], localStorage := stored }

/-! ## chat.js: peers -/

/-- `discoverPeers`: `result` is the outcome of `ipcRenderer.invoke('discover-peers')`
(`none` when it rejects). Reading `currentUser.ip` while `currentUser` is `null`
throws inside the filter callback, which runs only when there is a peer to
test; every exception lands in the `catch` block, which leaves the list as it
was. -/
def discoverPeers (s : ChatState) (result : Option (List Peer)) : ChatState :=
  match result with
  | none => s
  | some peers =>
    match s.currentUser with
    | some currentUser =>
      { s with discoveredPeers := peers.filter (fun peer => peer.ip != currentUser.ip) }
    | none => if peers.isEmpty then { s with discoveredPeers := [] } else s

/-- `initializeChatApp`: without stored user data the function returns early;
otherwise it sets the user, the session start (`joinedAt` parsed to
milliseconds, `startMs`), starts the session timer (`timerId`) and runs
`discoverPeers`. -/
def initializeChatApp (s : ChatState) (startMs : Int) (timerId : Nat)
    (result : Option (List Peer)) : ChatState :=
  match s.localStorage with
  | none => s
  | some userData =>
    discoverPeers
      { s with currentUser := some userData, sessionStartTime := some startMs,
               sessionDurationInterval := some timerId }
      result

/-- `selectPeer`: `Array.prototype.find` gives the first peer with that ip. -/
def selectPeer (s : ChatState) (ip : JSString) : ChatState :=
  match s.discoveredPeers.find? (fun p => p.ip == ip) with
  | none => s
  | some peer => { s with activePeer := some peer, activeMessages := [] }

/-! ## chat.js: text messages -/

/-- `sendMessage`: `time` and `timestamp` are the two readings of the clock.
The `invoke` that follows the push changes no variable, whatever its outcome. -/
def sendMessage (s : ChatState) (time : JSString) (timestamp : Int) : ChatState :=
  match s.activePeer with
  | none => s
  | some _ =>
    let text := trim s.messageInput
    if text.isEmpty then s
    else
      { s with activeMessages := s.activeMessages ++ [ChatMessage.text text true time timestamp],
               messageInput := [] }

/-- The `responses` array of `simulateResponse`. -/
def responses : List JSString :=
  [ js "Got it!", js "Thanks for that", js "Understood", js "Sounds good",
    js "I'll check it out", js "Let me know if you need anything else" ]

/-- `simulateResponse`: `i` is the value of
`Math.floor(Math.random() * responses.length)`. -/
def simulateResponse (s : ChatState) (i : Fin responses.length) (time : JSString)
    (timestamp : Int) : ChatState :=
  { s with activeMessages :=
      s.activeMessages ++ [ChatMessage.text (responses.get i) false time timestamp] }

/-- An event of the chat thread: the user types `typed` into the message input
and triggers `sendMessage`, or the timer of an earlier send fires
`simulateResponse`. -/
inductive ChatEvent where
  | send (typed : JSString) (time : JSString) (timestamp : Int)
  | response (i : Fin responses.length) (time : JSString) (timestamp : Int)
  deriving DecidableEq, Repr

/-- The effect of one event on the state. -/
def ChatEvent.apply (s : ChatState) : ChatEvent → ChatState
  | .send typed time timestamp => sendMessage { s with messageInput := typed } time timestamp
  | .response i time timestamp => simulateResponse s i time timestamp

/-- The effect of a sequence of events, in order. -/
def runEvents (s : ChatState) (events : List ChatEvent) : ChatState :=
  events.foldl ChatEvent.apply s

/-- The message object a `send` event with a non-blank text creates. -/
def sentMessage (typed time : JSString) (timestamp : Int) : ChatMessage :=
  ChatMessage.text (trim typed) true time timestamp

/-- The message object an event appends, when it appends one. -/
def ChatEvent.message : ChatEvent → ChatMessage
  | .send typed time timestamp => sentMessage typed time timestamp
  | .response i time timestamp => ChatMessage.text (responses.get i) false time timestamp

/-- The messages created by the `send` events of a sequence, in call order. -/
def sendsOf : List ChatEvent → List ChatMessage
  | [] => []
  | .send typed time timestamp :: rest => sentMessage typed time timestamp :: sendsOf rest
  | .response _ _ _ :: rest => sendsOf rest

/-- Every `send` event of the sequence has a text that is not blank. -/
def NonBlankSends (events : List ChatEvent) : Prop :=
  ∀ typed time timestamp, ChatEvent.send typed time timestamp ∈ events → trim typed ≠ []

/-! ## chat.js: file transfer -/

/-- Rounding of a real result to a JavaScript number. The progress arithmetic
is carried out in IEEE-754 doubles; all that is used of the rounding is that it
is monotone, idempotent and exact at 0 and 100. -/
structure Rounding where
  fl : ℚ → ℚ
  mono : ∀ a b, a ≤ b → fl a ≤ fl b
  idem : ∀ a, fl (fl a) = fl a
  zero : fl 0 = 0
  hundred : fl 100 = 100

/-- Exact arithmetic: nothing is rounded. -/
def Rounding.exact : Rounding :=
  { fl := id, mono := fun _ _ h => h, idem := fun _ => rfl, zero := rfl, hundred := rfl }

/-- Rounding down to a multiple of 1/8, a coarse grid on which sums are
visibly inexact. -/
def Rounding.eighths : Rounding :=
  { fl := fun a => (⌊a * 8⌋ : ℚ) / 8
    mono := fun a b h => by
      have h8 : a * 8 ≤ b * 8 := by linarith
      have hf : (⌊a * 8⌋ : ℚ) ≤ (⌊b * 8⌋ : ℚ) := by exact_mod_cast Int.floor_mono h8
      exact div_le_div_of_nonneg_right hf (by norm_num)
    idem := fun a => by simp
    zero := by simp
    hundred := by norm_num }

/-- A file transfer in flight: the `fileMessage` object captured by the
interval callback of `simulateFileTransfer`, and whether the interval is still
set (`clearInterval` not yet called). -/
structure Transfer where
  fileMessage : FileMessage
  interval : Bool
  deriving DecidableEq, Repr

/-- The body of the interval callback of `simulateFileTransfer`; `r` is the
value of `Math.random() * 15`. The result says whether `clearInterval` ran. -/
def transferCallback (R : Rounding) (m : FileMessage) (r : ℚ) : FileMessage × Bool :=
  let progress := R.fl (m.progress + r)
  if progress ≥ 100 then ({ m with progress := 100, status := TransferStatus.sent }, true)
  else ({ m with progress := progress }, false)

/-- One period of the interval: the callback runs if the interval is still
set, and not at all once it has been cleared. -/
def intervalTick (R : Rounding) (t : Transfer) (r : ℚ) : Transfer :=
  if t.interval then
    let (m, cleared) := transferCallback R t.fileMessage r
    { fileMessage := m, interval := !cleared }
  else t

/-- `simulateFileTransfer`: sets the interval on the given message. -/
def simulateFileTransfer (fileMessage : FileMessage) : Transfer :=
  { fileMessage := fileMessage, interval := true }

/-- `sendFile`: `fileSize` and `fileIcon` are the values of
`(file.size / (1024 * 1024)).toFixed(1)` and `getFileIcon(file.name)`;
`success` says whether the `send-file` invoke resolved with `success: true`
(otherwise the `catch` block marks the message failed). The message is pushed
to `activeMessages`; the transfer holds the same object. -/
def sendFile (s : ChatState) (fileName fileSize fileIcon time : JSString) (timestamp : Int)
    (success : Bool) : ChatState × Transfer :=
  let fileMessage : FileMessage :=
    { fileName := fileName, fileSize := fileSize, fileIcon := fileIcon, progress := 0,
      status := TransferStatus.sending, time := time, timestamp := timestamp }
  let s1 := { s with activeMessages := s.activeMessages ++ [ChatMessage.file fileMessage] }
  if success then (s1, simulateFileTransfer fileMessage)
  else (s1, { fileMessage := { fileMessage with status := TransferStatus.failed },
              interval := false })

/-- The transfer after the interval has fired once for each increment of the
list, in order. -/
def runTransfer (R : Rounding) (t : Transfer) (rs : List ℚ) : Transfer :=
  rs.foldl (intervalTick R) t

/-- What holds of every transfer started by `sendFile`: the progress lies
between 0 and 100 and is a representable number, the status is `sent` exactly
at 100, and a sent transfer has its interval cleared. -/
def TransferInv (R : Rounding) (t : Transfer) : Prop :=
  0 ≤ t.fileMessage.progress ∧ t.fileMessage.progress ≤ 100 ∧
  R.fl t.fileMessage.progress = t.fileMessage.progress ∧
  (t.fileMessage.status = TransferStatus.sent ↔ t.fileMessage.progress = 100) ∧
  (t.fileMessage.status = TransferStatus.sent → t.interval = false)

/-- Every increment of the list is a value `Math.random() * 15` can take. -/
def ValidIncrements (rs : List ℚ) : Prop := ∀ r ∈ rs, 0 ≤ r ∧ r < 15

/-! ## chat.js: logout -/

/-- The `sessionData` object of `handleLogout`. -/
structure SessionData where
  user : JSString
  device : JSString
  ip : JSString
  startTime : Option Int
  endTime : Int
  duration : Int
  deriving DecidableEq, Repr

/-- `cleanup`: clears the timer, the state variables and the stored user. -/
def cleanup (s : ChatState) : ChatState :=
  { s with sessionDurationInterval := none, currentUser := none, sessionStartTime := none,
           activePeer := none, activeMessages := [], discoveredPeers := [],
           localStorage := none }

/-- `handleLogout`: `confirmed` is the answer of `confirm`, `sessionEnd` the
value of `new Date()`, `logged` whether the `log-session-data` invoke resolved.
The second component lists the records passed to `log-session-data`. With
`currentUser` null the object literal throws before anything is sent; a null
start time counts as 0 in the subtraction. -/
def handleLogout (s : ChatState) (confirmed : Bool) (sessionEnd : Int) (logged : Bool) :
    ChatState × List SessionData :=
  if !confirmed then (s, [])
  else
    match s.currentUser with
    | none => (s, [])
    | some currentUser =>
      let sessionData : SessionData :=
        { user := currentUser.name, device := currentUser.device, ip := currentUser.ip,
          startTime := s.sessionStartTime, endTime := sessionEnd,
          duration := sessionEnd - s.sessionStartTime.getD 0 }
      if logged then (cleanup s, [sessionData]) else (s, [sessionData])

/-! ## Sample inputs -/

/-- The login page with `Alice` typed as display name and `Laptop` as device. -/
def alicePage : LoginPage :=
  { displayNameInput := js "Alice", deviceNameInput := js "Laptop",
    deviceNamePlaceholder := js "Linux PC", localStorage := none }

/-- A platform description as `get-platform-info` returns it. -/
def linuxBox : PlatformInfo :=
  { platform := js "linux", hostname := js "box", type := js "Linux", arch := js "x64" }

/-- An environment in which both invokes of `handleLogin` resolve. -/
def aliceEnv : LoginEnv :=
  { userIP := some (js "192.168.1.50"), platformInfo := some linuxBox,
    now := js "2024-01-01T00:00:00.000Z" }

/-- The chat page as `initializeChatApp` leaves it after the login of
`alicePage` in the environment `env`, the `discover-peers` invoke answered by
the handler of `main.js`. -/
def aliceChat (env : LoginEnv) (startMs : Int) (timerId : Nat) : ChatState :=
  initializeChatApp (initialChatState (handleLogin alicePage env).localStorage) startMs timerId
    (some discoverPeersHandler)

/-- The second mock peer. -/
def bob : Peer :=
  { name := js "Bob", device := js "MacBook Pro", ip := js "192.168.1.102",
    status := js "online", avatar := js "B" }

/-- The third mock peer. -/
def carol : Peer :=
  { name := js "Carol", device := js "Windows 11", ip := js "192.168.1.103",
    status := js "away", avatar := js "C" }

/-- Two sends with a simulated response in between. -/
def sampleEvents : List ChatEvent :=
  [ ChatEvent.send (js " one ") (js "10:01") 3000,
    ChatEvent.response ⟨0, by decide⟩ (js "10:01") 4000,
    ChatEvent.send (js "two") (js "10:02") 5000 ]

/-- A chat page in use: Al is logged in since millisecond 1000, the mock peers
are listed, Bob is selected and one message has been sent. -/
def sampleChat : ChatState :=
  { currentUser := some { name := js "Al", device := js "Laptop", ip := js "192.168.1.50",
                          platform := linuxBox, joinedAt := js "2024-01-01T00:00:00.000Z" },
    sessionStartTime := some 1000, sessionDurationInterval := some 1,
    activePeer := some bob,
    activeMessages := [ChatMessage.text (js "hi") true (js "10:00") 2000],
    discoveredPeers := mockPeers, messageInput := [],
    localStorage := some { name := js "Al", device := js "Laptop", ip := js "192.168.1.50",
                           platform := linuxBox, joinedAt := js "2024-01-01T00:00:00.000Z" } }

/-- Eight increments of 14 each: enough to reach 100. -/
def fourteens : List ℚ := [14, 14, 14, 14, 14, 14, 14, 14]

/-- A transfer started by `sendFile` on an empty chat page. -/
def sampleTransfer : Transfer :=
  (sendFile (initialChatState none) (js "a.txt") (js "0.1") (js "t") (js "10:00") 0 true).2

/-! ## Theorems: login.js -/

theorem validateForm_ok_iff (s : JSString) :
    (validateForm s).ok = true ↔
      2 ≤ (trim s).length ∧ (trim s).length ≤ 20 ∧ ∀ c ∈ trim s, isInvalidChar c = false := by
  unfold validateForm
  simp only []
  rcases h : trim s with _ | ⟨a, t⟩
  · simp
  · simp only [List.isEmpty_cons, Bool.false_eq_true, if_false, invalidCharsTest]
    split_ifs with h1 h2 h3
    · simp only [List.length_cons] at h1 ⊢; simp; omega
    · simp only [List.length_cons] at h2 ⊢; simp; omega
    · simp only [List.any_eq_true] at h3
      obtain ⟨c, hc, hc2⟩ := h3
      simp only [Bool.false_eq_true, false_iff, not_and, not_forall]
      intro _ _
      exact ⟨c, by simpa using hc, by simp [hc2]⟩
    · simp only [true_iff]
      simp only [List.length_cons] at h1 h2 ⊢
      refine ⟨by omega, by omega, ?_⟩
      intro c hc
      simp only [List.any_eq_true, not_exists, not_and] at h3
      simpa using h3 c hc

theorem trim_eq_nil_of_blank (s : JSString) (h : ∀ c ∈ s, isWhiteSpace c = true) :
    trim s = [] := by
  have h1 : s.dropWhile isWhiteSpace = [] := by
    rw [List.dropWhile_eq_nil_iff]
    exact h
  simp [trim, h1, List.rdropWhile]

/-- C1: `validateForm` returns true exactly when the trimmed input has between 2
and 20 code units and none of them is one of `< > : " / \ | ? *`, and false
otherwise; so a clean trimmed name of exactly 2 or exactly 20 code units is
accepted, and an empty or white-space-only input is rejected. -/
theorem validateForm_accepts_iff (s : JSString) :
    ((validateForm s).ok = true ↔
      2 ≤ (trim s).length ∧ (trim s).length ≤ 20 ∧
        ∀ c ∈ trim s, isInvalidChar c = false) ∧
    ((validateForm s).ok = false ↔
      ¬ (2 ≤ (trim s).length ∧ (trim s).length ≤ 20 ∧
        ∀ c ∈ trim s, isInvalidChar c = false)) ∧
    ((trim s).length = 2 → (∀ c ∈ trim s, isInvalidChar c = false) →
      (validateForm s).ok = true) ∧
    ((trim s).length = 20 → (∀ c ∈ trim s, isInvalidChar c = false) →
      (validateForm s).ok = true) ∧
    ((∀ c ∈ s, isWhiteSpace c = true) → (validateForm s).ok = false) := by
  have key := validateForm_ok_iff s
  refine ⟨key, ?_, ?_, ?_, ?_⟩
  · rw [← key]; simp
  · intro h2 hc
    exact key.2 ⟨by omega, by omega, hc⟩
  · intro h20 hc
    exact key.2 ⟨by omega, by omega, hc⟩
  · intro hb
    have ht := trim_eq_nil_of_blank s hb
    cases hv : (validateForm s).ok with
    | false => rfl
    | true =>
      have := (key.1 hv).1
      simp [ht] at this

/-- C1, at concrete inputs: a padded 2-unit name and a 20-unit name are
accepted, a run of blanks is rejected. -/
theorem validateForm_accepts_iff_witness :
    (validateForm (js "  Al ")).ok = true ∧
    (validateForm (js "ABCDEFGHIJKLMNOPQRST")).ok = true ∧
    (validateForm (js "   ")).ok = false :=
  ⟨(validateForm_accepts_iff (js "  Al ")).2.2.1 (by decide) (by decide),
   (validateForm_accepts_iff (js "ABCDEFGHIJKLMNOPQRST")).2.2.2.1 (by decide) (by decide),
   (validateForm_accepts_iff (js "   ")).2.2.2.2 (by decide)⟩

/-- C2: `handleLogin` leaves the page as it was when `validateForm` rejects;
when `validateForm` accepts and both invokes resolve, it stores a record whose
name is the trimmed display-name input; and whenever the stored entry differs
from the one before, the entry is a record whose name is that trimmed input,
of 2 to 20 code units, none of them among `< > : " / \ | ? *`. -/
theorem handleLogin_stores_valid (pg : LoginPage) (env : LoginEnv) :
    ((validateForm pg.displayNameInput).ok = false → handleLogin pg env = pg) ∧
    ((validateForm pg.displayNameInput).ok = true →
      ∀ userIP platformInfo, env.userIP = some userIP → env.platformInfo = some platformInfo →
        ∃ u, (handleLogin pg env).localStorage = some u ∧
          u.name = trim pg.displayNameInput ∧ u.ip = userIP ∧
          u.platform = platformInfo ∧ u.joinedAt = env.now) ∧
    ((handleLogin pg env).localStorage = pg.localStorage ∨
      ∃ u, (handleLogin pg env).localStorage = some u ∧
        (validateForm pg.displayNameInput).ok = true ∧
        u.name = trim pg.displayNameInput ∧
        2 ≤ u.name.length ∧ u.name.length ≤ 20 ∧
        ∀ c ∈ u.name, isInvalidChar c = false) := by
  refine ⟨?_, ?_, ?_⟩
  · intro h
    simp [handleLogin, h]
  · intro h userIP platformInfo hip hpi
    simp [handleLogin, h, hip, hpi]
  · cases h : (validateForm pg.displayNameInput).ok with
    | false => left; simp [handleLogin, h]
    | true =>
      have hv := (validateForm_ok_iff pg.displayNameInput).1 h
      rcases hip : env.userIP with _ | userIP
      · left; simp [handleLogin, h, hip]
      · rcases hpi : env.platformInfo with _ | platformInfo
        · left; simp [handleLogin, h, hip, hpi]
        · right
          refine ⟨_, by simp [handleLogin, h, hip, hpi]; rfl, rfl, rfl, hv.1, hv.2.1, hv.2.2⟩

/-- C2, at a concrete page: the padded name `  Alice ` is stored trimmed, and
a one-letter name stores nothing. -/
theorem handleLogin_stores_valid_witness :
    (validateForm (js "  Alice ")).ok = true ∧
    (∃ u, (handleLogin { alicePage with displayNameInput := js "  Alice " } aliceEnv).localStorage
        = some u ∧
      u.name = trim (js "  Alice ") ∧ u.ip = js "192.168.1.50" ∧
      u.platform = linuxBox ∧ u.joinedAt = aliceEnv.now) ∧
    handleLogin { alicePage with displayNameInput := js "A" } aliceEnv =
      { alicePage with displayNameInput := js "A" } :=
  ⟨by decide,
   (handleLogin_stores_valid { alicePage with displayNameInput := js "  Alice " } aliceEnv).2.1
     (by decide) _ _ rfl rfl,
   (handleLogin_stores_valid { alicePage with displayNameInput := js "A" } aliceEnv).1
     (by decide)⟩

/-- C3: a display name of exactly 20 code units is accepted by `validateForm`,
although the message shown for a longer name reads
`Display name must be less than 20 characters`: the length test is `> 20`. -/
theorem validateForm_accepts_twenty :
    (trim (js "ABCDEFGHIJKLMNOPQRST")).length = 20 ∧
    (validateForm (js "ABCDEFGHIJKLMNOPQRST")).ok = true ∧
    validateForm (js "ABCDEFGHIJKLMNOPQRSTU") =
      ⟨false, some "Display name must be less than 20 characters"⟩ := by
  refine ⟨by decide, by decide, by decide⟩

/-! ## Theorems: peers -/

/-- C4: when discovery returns `peers` and the current user has address
`u.ip`, the list kept by `discoverPeers` is the sub-sequence of `peers` whose
ip differs from `u.ip`: it is a sublist of `peers` (same relative order), holds
no peer with that ip, and holds every other returned peer as often as
discovery returned it. -/
theorem discoverPeers_excludes_self (s : ChatState) (u : UserData) (peers : List Peer)
    (h : s.currentUser = some u) :
    (discoverPeers s (some peers)).discoveredPeers =
      peers.filter (fun peer => peer.ip != u.ip) ∧
    (discoverPeers s (some peers)).discoveredPeers.Sublist peers ∧
    (∀ p ∈ (discoverPeers s (some peers)).discoveredPeers, p.ip ≠ u.ip) ∧
    (∀ p ∈ peers, p.ip ≠ u.ip → p ∈ (discoverPeers s (some peers)).discoveredPeers) ∧
    (∀ p, p.ip ≠ u.ip →
      (discoverPeers s (some peers)).discoveredPeers.count p = peers.count p) := by
  have hd : (discoverPeers s (some peers)).discoveredPeers =
      peers.filter (fun peer => peer.ip != u.ip) := by
    simp [discoverPeers, h]
  rw [hd]
  refine ⟨rfl, List.filter_sublist _, ?_, ?_, ?_⟩
  · intro p hp
    have := (List.mem_filter.1 hp).2
    simpa using this
  · intro p hp hne
    exact List.mem_filter.2 ⟨hp, by simpa using hne⟩
  · intro p hne
    rw [List.count_filter]
    simpa using hne

/-- C4, at a concrete state: the user sits at the address of the first mock
peer, which is dropped while the other three stay in order. -/
theorem discoverPeers_excludes_self_witness :
    (discoverPeers
        { initialChatState none with
            currentUser := some { name := js "Al", device := js "Laptop",
                                  ip := js "192.168.1.101", platform := linuxBox,
                                  joinedAt := js "2024-01-01T00:00:00.000Z" } }
        (some mockPeers)).discoveredPeers = mockPeers.drop 1 :=
  (discoverPeers_excludes_self _ _ mockPeers rfl).1.trans (by decide)

theorem mockPeers_filter_length (a : JSString) :
    3 ≤ (mockPeers.filter (fun peer => peer.ip != a)).length ∧
    (mockPeers.filter (fun peer => peer.ip != a)).length ≤ 4 := by
  refine ⟨?_, (List.length_filter_le _ _).trans (by decide)⟩
  by_cases h1 : a = js "192.168.1.101"
  · subst h1; decide
  by_cases h2 : a = js "192.168.1.102"
  · subst h2; decide
  by_cases h3 : a = js "192.168.1.103"
  · subst h3; decide
  by_cases h4 : a = js "192.168.1.104"
  · subst h4; decide
  have e1 : (js "192.168.1.101" != a) = true := by simpa using Ne.symm h1
  have e2 : (js "192.168.1.102" != a) = true := by simpa using Ne.symm h2
  have e3 : (js "192.168.1.103" != a) = true := by simpa using Ne.symm h3
  have e4 : (js "192.168.1.104" != a) = true := by simpa using Ne.symm h4
  simp only [mockPeers, List.filter_cons, e1, e2, e3, e4, if_true, List.filter_nil,
    List.length_cons, List.length_nil]
  omega

theorem aliceChat_currentUser (env : LoginEnv) (a : JSString) (info : PlatformInfo)
    (startMs : Int) (timerId : Nat) (ha : env.userIP = some a)
    (hp : env.platformInfo = some info) :
    aliceChat env startMs timerId =
      discoverPeers
        { initialChatState
            (some { name := js "Alice", device := js "Laptop", ip := a, platform := info,
                    joinedAt := env.now }) with
          currentUser := some { name := js "Alice", device := js "Laptop", ip := a,
                                platform := info, joinedAt := env.now },
          sessionStartTime := some startMs, sessionDurationInterval := some timerId }
        (some mockPeers) := by
  have hv : (validateForm alicePage.displayNameInput).ok = true := by decide
  have hn : trim alicePage.displayNameInput = js "Alice" := by decide
  have hd : trim alicePage.deviceNameInput = js "Laptop" := by decide
  have hl : (handleLogin alicePage env).localStorage =
      some { name := js "Alice", device := js "Laptop", ip := a, platform := info,
             joinedAt := env.now } := by
    have he : (js "Laptop").isEmpty = false := by decide
    simp only [handleLogin, hv, ha, hp, hn, hd, he, Bool.not_true, Bool.false_eq_true, if_false]
  simp only [aliceChat, hl, initializeChatApp, initialChatState, discoverPeersHandler]

/-- C5 fails: Alice logs in from 192.168.1.50 and nobody announces anything,
yet the chat screen lists the four peers of the handler. -/
theorem aliceChat_peers_not_empty :
    (aliceChat aliceEnv 0 1).discoveredPeers = mockPeers ∧
    ¬ ((aliceChat aliceEnv 0 1).discoveredPeers = []) := by
  constructor <;> decide

/-- C5, amended: when Alice on Laptop logs in from any address `a`, the peer
list of the chat screen is the fixed list of the `discover-peers` handler
without the entries whose ip is `a`; it has three or four entries and is
never empty. -/
theorem aliceChat_peers_are_mock (env : LoginEnv) (a : JSString) (info : PlatformInfo)
    (startMs : Int) (timerId : Nat) (ha : env.userIP = some a)
    (hp : env.platformInfo = some info) :
    (∃ u, (aliceChat env startMs timerId).currentUser = some u ∧
      u.name = js "Alice" ∧ u.device = js "Laptop" ∧ u.ip = a) ∧
    (aliceChat env startMs timerId).discoveredPeers =
      discoverPeersHandler.filter (fun peer => peer.ip != a) ∧
    3 ≤ (aliceChat env startMs timerId).discoveredPeers.length ∧
    (aliceChat env startMs timerId).discoveredPeers.length ≤ 4 ∧
    (aliceChat env startMs timerId).discoveredPeers ≠ [] := by
  rw [aliceChat_currentUser env a info startMs timerId ha hp]
  have hlen := mockPeers_filter_length a
  have hd : ∀ s : ChatState, ∀ u : UserData, s.currentUser = some u → u.ip = a →
      (discoverPeers s (some mockPeers)).discoveredPeers =
        mockPeers.filter (fun peer => peer.ip != a) := by
    intro s u hs hu
    simp [discoverPeers, hs, hu]
  have hc : ∀ s : ChatState, ∀ u : UserData, s.currentUser = some u →
      (discoverPeers s (some mockPeers)).currentUser = some u := by
    intro s u hs
    simp [discoverPeers, hs]
  have hu : ∀ u : UserData, some u = some u := fun _ => rfl
  refine ⟨⟨_, hc _ _ (hu _), rfl, rfl, rfl⟩, ?_⟩
  rw [hd _ { name := js "Alice", device := js "Laptop", ip := a, platform := info,
             joinedAt := env.now } rfl rfl]
  refine ⟨rfl, hlen.1, hlen.2, ?_⟩
  intro h
  have := hlen.1
  rw [h] at this
  simp at this

/-- C5, amended, at concrete inputs: from 192.168.1.50 all four mock peers are
listed. -/
theorem aliceChat_peers_are_mock_witness :
    aliceEnv.userIP = some (js "192.168.1.50") ∧
    aliceEnv.platformInfo = some linuxBox ∧
    3 ≤ (aliceChat aliceEnv 0 1).discoveredPeers.length :=
  ⟨rfl, rfl, (aliceChat_peers_are_mock aliceEnv _ _ 0 1 rfl rfl).2.2.1⟩

/-! ## Theorems: file transfer -/

theorem sendFile_inv (R : Rounding) (s : ChatState) (fileName fileSize fileIcon time : JSString)
    (timestamp : Int) (success : Bool) :
    TransferInv R (sendFile s fileName fileSize fileIcon time timestamp success).2 := by
  cases success <;>
    simp [sendFile, simulateFileTransfer, TransferInv, R.zero]

theorem intervalTick_inv (R : Rounding) (t : Transfer) (r : ℚ) (hr : 0 ≤ r)
    (h : TransferInv R t) : TransferInv R (intervalTick R t r) := by
  obtain ⟨h0, h100, hfl, hiff, hint⟩ := h
  unfold intervalTick
  cases hi : t.interval with
  | false => simpa [hi] using ⟨h0, h100, hfl, hiff, fun hs => hi ▸ hint hs⟩
  | true =>
    have hns : t.fileMessage.status ≠ TransferStatus.sent := by
      intro hs
      have := hint hs
      rw [hi] at this
      exact Bool.noConfusion this
    have hge : t.fileMessage.progress ≤ R.fl (t.fileMessage.progress + r) := by
      have := R.mono t.fileMessage.progress (t.fileMessage.progress + r) (by linarith)
      rwa [hfl] at this
    simp only [if_true, transferCallback]
    by_cases hc : R.fl (t.fileMessage.progress + r) ≥ 100
    · simp [hc, TransferInv, R.hundred]
    · simp only [hc, if_false, TransferInv, Bool.not_false]
      refine ⟨le_trans h0 hge, le_of_lt (not_le.1 hc), R.idem _, ?_, ?_⟩
      · constructor
        · intro hs; exact absurd hs hns
        · intro hp
          exact absurd (le_of_eq hp.symm) hc
      · intro hs; exact absurd hs hns

theorem runTransfer_inv (R : Rounding) (rs : List ℚ) (t : Transfer) (hrs : ValidIncrements rs)
    (h : TransferInv R t) : TransferInv R (runTransfer R t rs) := by
  induction rs generalizing t with
  | nil => simpa [runTransfer] using h
  | cons r rest ih =>
    have hr := hrs r (List.mem_cons_self _ _)
    have hrest : ValidIncrements rest := fun x hx => hrs x (List.mem_cons_of_mem _ hx)
    simpa [runTransfer] using ih (intervalTick R t r) hrest (intervalTick_inv R t r hr.1 h)

/-- C6: a file message created by `sendFile` starts at progress 0 with status
`sending` (`failed` when the invoke does not succeed), and after any number of
interval steps with increments in [0, 15) its progress `p` satisfies
0 ≤ p ≤ 100 and its status is `sent` if and only if p = 100. -/
theorem transfer_progress_invariant (R : Rounding) (s : ChatState)
    (fileName fileSize fileIcon time : JSString) (timestamp : Int) (success : Bool)
    (rs : List ℚ) (hrs : ValidIncrements rs) :
    (sendFile s fileName fileSize fileIcon time timestamp success).2.fileMessage.progress = 0 ∧
    (sendFile s fileName fileSize fileIcon time timestamp true).2.fileMessage.status =
      TransferStatus.sending ∧
    0 ≤ (runTransfer R (sendFile s fileName fileSize fileIcon time timestamp success).2
          rs).fileMessage.progress ∧
    (runTransfer R (sendFile s fileName fileSize fileIcon time timestamp success).2
          rs).fileMessage.progress ≤ 100 ∧
    ((runTransfer R (sendFile s fileName fileSize fileIcon time timestamp success).2
          rs).fileMessage.status = TransferStatus.sent ↔
      (runTransfer R (sendFile s fileName fileSize fileIcon time timestamp success).2
          rs).fileMessage.progress = 100) := by
  have h := runTransfer_inv R rs _ hrs
    (sendFile_inv R s fileName fileSize fileIcon time timestamp success)
  refine ⟨?_, ?_, h.1, h.2.1, h.2.2.2.1⟩
  · cases success <;> simp [sendFile, simulateFileTransfer]
  · simp [sendFile, simulateFileTransfer]

/-- C6, at concrete inputs: after eight steps of 14 the transfer is clamped at
100 and marked sent. -/
theorem transfer_progress_invariant_witness :
    ValidIncrements fourteens ∧
    ((runTransfer Rounding.exact
        (sendFile (initialChatState none) (js "a.txt") (js "0.1") (js "t") (js "10:00") 0 true).2
        fourteens).fileMessage.status = TransferStatus.sent ↔
      (runTransfer Rounding.exact
        (sendFile (initialChatState none) (js "a.txt") (js "0.1") (js "t") (js "10:00") 0 true).2
        fourteens).fileMessage.progress = 100) :=
  ⟨by intro r hr; simp [fourteens] at hr; subst hr; norm_num,
   (transfer_progress_invariant Rounding.exact (initialChatState none) (js "a.txt") (js "0.1")
      (js "t") (js "10:00") 0 true fourteens
      (by intro r hr; simp [fourteens] at hr; subst hr; norm_num)).2.2.2.2⟩

/-- C7: in every state a transfer started by `sendFile` can reach, an interval
step with an increment in [0, 15) never lowers the progress (the clamping step
included), and once the status is `sent` the step changes nothing: the
interval is cleared, and the callback itself would leave the message as it
is. -/
theorem transfer_progress_monotone (R : Rounding) (s : ChatState)
    (fileName fileSize fileIcon time : JSString) (timestamp : Int) (success : Bool)
    (rs : List ℚ) (r : ℚ) (hrs : ValidIncrements rs) (hr0 : 0 ≤ r) (_hr15 : r < 15) :
    (runTransfer R (sendFile s fileName fileSize fileIcon time timestamp success).2
        rs).fileMessage.progress ≤
      (intervalTick R
        (runTransfer R (sendFile s fileName fileSize fileIcon time timestamp success).2 rs)
        r).fileMessage.progress ∧
    ((runTransfer R (sendFile s fileName fileSize fileIcon time timestamp success).2
        rs).fileMessage.status = TransferStatus.sent →
      intervalTick R
          (runTransfer R (sendFile s fileName fileSize fileIcon time timestamp success).2 rs) r =
        runTransfer R (sendFile s fileName fileSize fileIcon time timestamp success).2 rs ∧
      (transferCallback R
          (runTransfer R (sendFile s fileName fileSize fileIcon time timestamp success).2
            rs).fileMessage r).1 =
        (runTransfer R (sendFile s fileName fileSize fileIcon time timestamp success).2
          rs).fileMessage) := by
  have h := runTransfer_inv R rs _ hrs
    (sendFile_inv R s fileName fileSize fileIcon time timestamp success)
  generalize runTransfer R (sendFile s fileName fileSize fileIcon time timestamp success).2 rs
    = t at h ⊢
  obtain ⟨h0, h100, hfl, hiff, hint⟩ := h
  have hge : t.fileMessage.progress ≤ R.fl (t.fileMessage.progress + r) := by
    have := R.mono t.fileMessage.progress (t.fileMessage.progress + r) (by linarith)
    rwa [hfl] at this
  constructor
  · unfold intervalTick
    cases hi : t.interval with
    | false => simp
    | true =>
      simp only [if_true, transferCallback]
      by_cases hc : R.fl (t.fileMessage.progress + r) ≥ 100
      · simpa [hc] using h100
      · simpa [hc] using hge
  · intro hs
    have hp := hiff.1 hs
    constructor
    · simp [intervalTick, hint hs]
    · have hc : R.fl (t.fileMessage.progress + r) ≥ 100 := by
        have := hge
        rw [hp] at this ⊢
        exact this
      rcases ht : t.fileMessage with ⟨a, b, c, d, e, f, g⟩
      rw [ht] at hs hp hc
      simp only at hs hp hc
      subst hp hs
      have hc2 : (100 : ℚ) ≤ R.fl (100 + r) := hc
      simp [transferCallback, hc2]

/-- C7, at concrete inputs: from progress 98 a step of 14 clamps to 100. -/
theorem transfer_progress_monotone_witness :
    ValidIncrements (List.replicate 7 (14 : ℚ)) ∧
    (runTransfer Rounding.exact
        (sendFile (initialChatState none) (js "a.txt") (js "0.1") (js "t") (js "10:00") 0 true).2
        (List.replicate 7 14)).fileMessage.progress ≤
      (intervalTick Rounding.exact
        (runTransfer Rounding.exact
          (sendFile (initialChatState none) (js "a.txt") (js "0.1") (js "t") (js "10:00") 0
            true).2
          (List.replicate 7 14))
        14).fileMessage.progress :=
  ⟨by intro r hr; simp at hr; subst hr; norm_num,
   (transfer_progress_monotone Rounding.exact (initialChatState none) (js "a.txt") (js "0.1")
      (js "t") (js "10:00") 0 true (List.replicate 7 14) 14
      (by intro r hr; simp at hr; subst hr; norm_num) (by norm_num) (by norm_num)).1⟩

theorem sampleTransfer_run :
    (runTransfer Rounding.exact sampleTransfer [14, 14, 14, 14, 14, 14, 14]).fileMessage.progress
      = 98 ∧
    (runTransfer Rounding.exact sampleTransfer fourteens).fileMessage.progress = 100 ∧
    (runTransfer Rounding.exact sampleTransfer fourteens).fileMessage.status
      = TransferStatus.sent := by
  simp [runTransfer, sampleTransfer, fourteens, sendFile, simulateFileTransfer, intervalTick,
    transferCallback, Rounding.exact]
  norm_num

/-! ## Theorems: logout -/

/-- C8: on a confirmed logout with a user `u` logged in since `t0`,
`handleLogout` passes exactly one record to `log-session-data`, whose user,
device and ip are those of `u`, whose start time is `t0`, whose end time is the
time of the logout and whose duration is end time minus start time; when the
user declines, no record is passed and the state is unchanged. -/
theorem handleLogout_summary (s : ChatState) (u : UserData) (t0 sessionEnd : Int)
    (logged : Bool) (hu : s.currentUser = some u) (ht : s.sessionStartTime = some t0) :
    (handleLogout s true sessionEnd logged).2 =
      [{ user := u.name, device := u.device, ip := u.ip, startTime := some t0,
         endTime := sessionEnd, duration := sessionEnd - t0 }] ∧
    (∀ d ∈ (handleLogout s true sessionEnd logged).2,
      d.startTime = some t0 ∧ d.duration = d.endTime - t0) ∧
    handleLogout s false sessionEnd logged = (s, []) := by
  have h1 : (handleLogout s true sessionEnd logged).2 =
      [{ user := u.name, device := u.device, ip := u.ip, startTime := some t0,
         endTime := sessionEnd, duration := sessionEnd - t0 }] := by
    cases logged <;> simp [handleLogout, hu, ht]
  refine ⟨h1, ?_, by simp [handleLogout]⟩
  intro d hd
  rw [h1] at hd
  simp only [List.mem_singleton] at hd
  subst hd
  exact ⟨rfl, rfl⟩

/-- C8, at a concrete state: Al, logged in at 1000, leaves at 61000. -/
theorem handleLogout_summary_witness :
    sampleChat.sessionStartTime = some 1000 ∧
    (handleLogout sampleChat true 61000 true).2 =
      [{ user := js "Al", device := js "Laptop", ip := js "192.168.1.50",
         startTime := some 1000, endTime := 61000, duration := 61000 - 1000 }] ∧
    handleLogout sampleChat false 61000 true = (sampleChat, []) :=
  ⟨rfl, (handleLogout_summary sampleChat _ 1000 61000 true rfl rfl).1,
   (handleLogout_summary sampleChat _ 1000 61000 true rfl rfl).2.2⟩

/-! ## Theorems: chat thread -/

theorem sendMessage_appends (s : ChatState) (p : Peer) (typed time : JSString)
    (timestamp : Int) (hp : s.activePeer = some p) (ht : trim typed ≠ []) :
    (ChatEvent.apply s (ChatEvent.send typed time timestamp)).activeMessages =
      s.activeMessages ++ [sentMessage typed time timestamp] ∧
    (ChatEvent.apply s (ChatEvent.send typed time timestamp)).activePeer = some p := by
  have he : (trim typed).isEmpty = false := by
    cases h : trim typed with
    | nil => exact absurd h ht
    | cons a l => rfl
  simp [ChatEvent.apply, sendMessage, hp, he, sentMessage]

theorem runEvents_activeMessages (events : List ChatEvent) (s : ChatState) (p : Peer)
    (hp : s.activePeer = some p) (hn : NonBlankSends events) :
    (runEvents s events).activeMessages = s.activeMessages ++ events.map ChatEvent.message := by
  induction events generalizing s with
  | nil => simp [runEvents]
  | cons e rest ih =>
    have hrest : NonBlankSends rest := fun typed time timestamp hm =>
      hn typed time timestamp (List.mem_cons_of_mem _ hm)
    have hstep : (ChatEvent.apply s e).activeMessages = s.activeMessages ++ [e.message] ∧
        (ChatEvent.apply s e).activePeer = some p := by
      cases e with
      | send typed time timestamp =>
        exact sendMessage_appends s p typed time timestamp hp
          (hn typed time timestamp (List.mem_cons_self _ _))
      | response i time timestamp =>
        exact ⟨by simp [ChatEvent.apply, simulateResponse, ChatEvent.message],
          by simpa [ChatEvent.apply, simulateResponse] using hp⟩
    have := ih (ChatEvent.apply s e) hstep.2 hrest
    simp only [runEvents, List.foldl_cons] at this ⊢
    rw [this, hstep.1]
    simp

theorem filter_sent_messages (events : List ChatEvent) :
    (events.map ChatEvent.message).filter ChatMessage.sent = sendsOf events := by
  induction events with
  | nil => rfl
  | cons e rest ih =>
    cases e with
    | send typed time timestamp =>
      simp [ChatEvent.message, sentMessage, ChatMessage.sent, sendsOf, ih]
    | response i time timestamp =>
      simp [ChatEvent.message, ChatMessage.sent, sendsOf, ih]

/-- C9: with a peer selected and no re-selection, every `sendMessage` call with
a non-blank text appends its message at the end of `activeMessages` and keeps
the earlier entries; over any sequence of such calls interleaved with
simulated responses, `activeMessages` grows by one entry per event in event
order, so the entries marked sent are the earlier sent entries followed by the
messages of the calls in call order. -/
theorem sent_messages_fifo (s : ChatState) (p : Peer) (events : List ChatEvent)
    (hp : s.activePeer = some p) (hn : NonBlankSends events) :
    (∀ typed time timestamp, trim typed ≠ [] →
      (sendMessage { s with messageInput := typed } time timestamp).activeMessages =
        s.activeMessages ++ [ChatMessage.text (trim typed) true time timestamp]) ∧
    (runEvents s events).activeMessages = s.activeMessages ++ events.map ChatEvent.message ∧
    (runEvents s events).activeMessages.take s.activeMessages.length = s.activeMessages ∧
    ((runEvents s events).activeMessages.drop s.activeMessages.length).filter ChatMessage.sent =
      sendsOf events ∧
    (runEvents s events).activeMessages.filter ChatMessage.sent =
      s.activeMessages.filter ChatMessage.sent ++ sendsOf events := by
  have hrun := runEvents_activeMessages events s p hp hn
  refine ⟨?_, hrun, ?_, ?_, ?_⟩
  · intro typed time timestamp ht
    exact (sendMessage_appends s p typed time timestamp hp ht).1
  · rw [hrun]; simp
  · rw [hrun]; simp [filter_sent_messages]
  · rw [hrun, List.filter_append, filter_sent_messages]

/-- C9, at a concrete thread: after `hi`, the sends `one` and `two` with a
response in between are listed in that order. -/
theorem sent_messages_fifo_witness :
    sampleChat.activePeer = some bob ∧
    (runEvents sampleChat sampleEvents).activeMessages.filter ChatMessage.sent =
      sampleChat.activeMessages.filter ChatMessage.sent ++
        [ ChatMessage.text (js "one") true (js "10:01") 3000,
          ChatMessage.text (js "two") true (js "10:02") 5000 ] :=
  ⟨rfl,
   (sent_messages_fifo sampleChat bob sampleEvents rfl
      (by
        intro typed time timestamp hm
        simp only [sampleEvents, List.mem_cons, List.mem_singleton, ChatEvent.send.injEq,
          List.mem_nil_iff, or_false] at hm
        rcases hm with ⟨h, _, _⟩ | h | ⟨h, _, _⟩
        · subst h; decide
        · exact absurd h (by simp)
        · subst h; decide)).2.2.2.2.trans (by decide)⟩

/-- C10: `selectPeer(ip)` with some discovered peer of that ip makes the first
such peer the active peer and empties `activeMessages`, keeping
`discoveredPeers`, the current user and everything else; with no discovered
peer of that ip it leaves the whole state as it was. -/
theorem selectPeer_effect (s : ChatState) (ip : JSString) :
    ((∃ p ∈ s.discoveredPeers, p.ip = ip) →
      ∃ pre peer post, s.discoveredPeers = pre ++ peer :: post ∧ peer.ip = ip ∧
        (∀ q ∈ pre, q.ip ≠ ip) ∧
        selectPeer s ip = { s with activePeer := some peer, activeMessages := [] } ∧
        (selectPeer s ip).activePeer = some peer ∧
        (selectPeer s ip).activeMessages = [] ∧
        (selectPeer s ip).discoveredPeers = s.discoveredPeers ∧
        (selectPeer s ip).currentUser = s.currentUser) ∧
    ((∀ p ∈ s.discoveredPeers, p.ip ≠ ip) → selectPeer s ip = s) := by
  constructor
  · rintro ⟨p, hp, hip⟩
    cases hf : s.discoveredPeers.find? (fun p => p.ip == ip) with
    | none =>
      rw [List.find?_eq_none] at hf
      exact absurd (by simpa using hip) (hf p hp)
    | some peer =>
      obtain ⟨hpeer, pre, post, hsplit, hpre⟩ := List.find?_eq_some.1 hf
      refine ⟨pre, peer, post, hsplit, by simpa using hpeer, ?_, ?_⟩
      · intro q hq
        simpa using hpre q hq
      · simp [selectPeer, hf]
  · intro hnone
    have hf : s.discoveredPeers.find? (fun p => p.ip == ip) = none := by
      rw [List.find?_eq_none]
      intro q hq
      simpa using hnone q hq
    simp [selectPeer, hf]

/-- C10, at a concrete state: selecting Carol by her ip clears the thread, and
an ip nobody has changes nothing. -/
theorem selectPeer_effect_witness :
    (∃ pre peer post, sampleChat.discoveredPeers = pre ++ peer :: post ∧
        peer.ip = js "192.168.1.103" ∧ (∀ q ∈ pre, q.ip ≠ js "192.168.1.103") ∧
        selectPeer sampleChat (js "192.168.1.103") =
          { sampleChat with activePeer := some peer, activeMessages := [] } ∧
        (selectPeer sampleChat (js "192.168.1.103")).activePeer = some peer ∧
        (selectPeer sampleChat (js "192.168.1.103")).activeMessages = [] ∧
        (selectPeer sampleChat (js "192.168.1.103")).discoveredPeers =
          sampleChat.discoveredPeers ∧
        (selectPeer sampleChat (js "192.168.1.103")).currentUser = sampleChat.currentUser) ∧
    selectPeer sampleChat (js "10.0.0.1") = sampleChat :=
  ⟨(selectPeer_effect sampleChat (js "192.168.1.103")).1 ⟨carol, by decide, by decide⟩,
   (selectPeer_effect sampleChat (js "10.0.0.1")).2 (by decide)⟩

/-! ## Theorems: default device name -/

theorem getDefaultDeviceName_switch (lower : JSString → JSString) (info : PlatformArg)
    (h : NoUsableHostname info) :
    getDefaultDeviceName lower info =
      if lower info.platform = js "linux" then js "Linux PC"
      else if lower info.platform = js "darwin" then js "MacBook"
      else if lower info.platform = js "win32" then js "Windows PC"
      else js "My Device" := by
  rcases h with h | h | h <;> simp [getDefaultDeviceName, h]

/-- C11: `getDefaultDeviceName` returns the hostname when it is present,
non-empty and not `localhost`; when the hostname is missing, empty or
`localhost`, the result is `Linux PC`, `MacBook` or `Windows PC` as the
lower-cased platform is `linux`, `darwin` or `win32`, and `My Device` for
every other platform, so that two platforms with the same lower-cased form
give the same name. -/
theorem getDefaultDeviceName_cases (lower : JSString → JSString) (info : PlatformArg) :
    (∀ hostname, info.hostname = some hostname → hostname ≠ [] → hostname ≠ js "localhost" →
      getDefaultDeviceName lower info = hostname) ∧
    (NoUsableHostname info →
      (lower info.platform = js "linux" → getDefaultDeviceName lower info = js "Linux PC") ∧
      (lower info.platform = js "darwin" → getDefaultDeviceName lower info = js "MacBook") ∧
      (lower info.platform = js "win32" →
        getDefaultDeviceName lower info = js "Windows PC") ∧
      (lower info.platform ≠ js "linux" → lower info.platform ≠ js "darwin" →
        lower info.platform ≠ js "win32" →
        getDefaultDeviceName lower info = js "My Device")) ∧
    (∀ other : PlatformArg, NoUsableHostname info → NoUsableHostname other →
      lower info.platform = lower other.platform →
      getDefaultDeviceName lower info = getDefaultDeviceName lower other) := by
  refine ⟨?_, ?_, ?_⟩
  · intro hostname hh hne hnl
    have he : hostname.isEmpty = false := by
      cases hostname with
      | nil => exact absurd rfl hne
      | cons a l => rfl
    have hb : (hostname != js "localhost") = true := by simpa using hnl
    simp [getDefaultDeviceName, hh, he, hb]
  · intro hno
    rw [getDefaultDeviceName_switch lower info hno]
    refine ⟨?_, ?_, ?_, ?_⟩
    · intro h; rw [h]; decide
    · intro h; rw [h]; decide
    · intro h; rw [h]; decide
    · intro h1 h2 h3; simp [h1, h2, h3]
  · intro other h1 h2 heq
    rw [getDefaultDeviceName_switch lower info h1, getDefaultDeviceName_switch lower other h2,
      heq]

/-- C11, at concrete inputs: a real hostname is returned as it is, and with
`localhost` the platform `LINUX` gives `Linux PC`. -/
theorem getDefaultDeviceName_cases_witness :
    getDefaultDeviceName toLowerCaseASCII
      { platform := js "linux", hostname := some (js "box") } = js "box" ∧
    toLowerCaseASCII (js "LINUX") = js "linux" ∧
    getDefaultDeviceName toLowerCaseASCII
      { platform := js "LINUX", hostname := some (js "localhost") } = js "Linux PC" ∧
    getDefaultDeviceName toLowerCaseASCII { platform := js "Darwin", hostname := none } =
      getDefaultDeviceName toLowerCaseASCII { platform := js "DARWIN", hostname := some [] } :=
  ⟨(getDefaultDeviceName_cases toLowerCaseASCII
      { platform := js "linux", hostname := some (js "box") }).1 _ rfl (by decide) (by decide),
   by decide,
   ((getDefaultDeviceName_cases toLowerCaseASCII
      { platform := js "LINUX", hostname := some (js "localhost") }).2.1
        (Or.inr (Or.inr rfl))).1 (by decide),
   (getDefaultDeviceName_cases toLowerCaseASCII { platform := js "Darwin", hostname := none }).2.2
      { platform := js "DARWIN", hostname := some [] } (Or.inl rfl) (Or.inr (Or.inl rfl))
      (by decide)⟩

/-! ## Theorems: what sendMessage appends -/

theorem trim_head_not_blank (s : JSString) (h : trim s ≠ []) :
    isWhiteSpace ((trim s).head h) = false := by
  obtain ⟨rest, hrest⟩ : trim s <+: s.dropWhile isWhiteSpace :=
    List.rdropWhile_prefix isWhiteSpace (s.dropWhile isWhiteSpace)
  have hd : s.dropWhile isWhiteSpace ≠ [] := by
    intro hnil
    rw [hnil] at hrest
    exact h (List.append_eq_nil.1 hrest).1
  have hhead : (trim s).head h = (s.dropWhile isWhiteSpace).head hd := by
    have : (trim s ++ rest).head (by simp [h]) = (s.dropWhile isWhiteSpace).head hd := by
      congr 1
    rw [← this, List.head_append_of_ne_nil]
  rw [hhead]
  simpa using List.head_dropWhile_not isWhiteSpace s hd

theorem trim_last_not_blank (s : JSString) (h : trim s ≠ []) :
    isWhiteSpace ((trim s).getLast h) = false := by
  have := List.rdropWhile_last_not isWhiteSpace (s.dropWhile isWhiteSpace) h
  simpa [trim] using this

/-- C12: `sendMessage` leaves `activeMessages` (and the whole state) as it is
when no peer is active or the input is empty after trimming; otherwise it
appends exactly one message, whose text is the trimmed input, which is not
empty and neither starts nor ends with white space, and whose sent flag is
true. -/
theorem sendMessage_only_real (s : ChatState) (time : JSString) (timestamp : Int) :
    (s.activePeer = none → sendMessage s time timestamp = s) ∧
    (trim s.messageInput = [] → sendMessage s time timestamp = s) ∧
    (∀ p, s.activePeer = some p → ∀ h : trim s.messageInput ≠ [],
      (sendMessage s time timestamp).activeMessages =
        s.activeMessages ++ [ChatMessage.text (trim s.messageInput) true time timestamp] ∧
      (sendMessage s time timestamp).activeMessages.length = s.activeMessages.length + 1 ∧
      isWhiteSpace ((trim s.messageInput).head h) = false ∧
      isWhiteSpace ((trim s.messageInput).getLast h) = false) := by
  refine ⟨?_, ?_, ?_⟩
  · intro hp
    simp [sendMessage, hp]
  · intro ht
    cases hp : s.activePeer <;> simp [sendMessage, hp, ht]
  · intro p hp h
    have he : (trim s.messageInput).isEmpty = false := by
      cases ht : trim s.messageInput with
      | nil => exact absurd ht h
      | cons a l => rfl
    have happ : (sendMessage s time timestamp).activeMessages =
        s.activeMessages ++ [ChatMessage.text (trim s.messageInput) true time timestamp] := by
      simp [sendMessage, hp, he]
    refine ⟨happ, ?_, trim_head_not_blank _ h, trim_last_not_blank _ h⟩
    rw [happ]; simp

/-- C12, at concrete inputs: with Bob selected, ` yo ` is appended as `yo`; a
blank input, or no selected peer, changes nothing. -/
theorem sendMessage_only_real_witness :
    (sendMessage { sampleChat with messageInput := js " yo " } (js "10:03") 6000).activeMessages =
      sampleChat.activeMessages ++ [ChatMessage.text (js "yo") true (js "10:03") 6000] ∧
    sendMessage { sampleChat with messageInput := js "   " } (js "10:03") 6000 =
      { sampleChat with messageInput := js "   " } ∧
    sendMessage { sampleChat with activePeer := none, messageInput := js "yo" } (js "10:03") 6000 =
      { sampleChat with activePeer := none, messageInput := js "yo" } :=
  ⟨((sendMessage_only_real { sampleChat with messageInput := js " yo " } (js "10:03") 6000).2.2
      bob rfl (by decide)).1.trans (by decide),
   (sendMessage_only_real { sampleChat with messageInput := js "   " } (js "10:03") 6000).2.1
      (by decide),
   (sendMessage_only_real { sampleChat with activePeer := none, messageInput := js "yo" }
      (js "10:03") 6000).1 rfl⟩

end Chatrix
